import Mathlib

/-!
Verification of the favourites_store reconciliation, ranking and pagination
engine (src/favourites_store.py), shallowly embedded in Lean 4.

Dates (Python `datetime` objects) are modelled as `Nat` timestamps; an
optional date is `Option Nat`.  Python dicts preserve insertion order, so the
`users` and `submissions` dicts are modelled as lists in insertion order
(`dict[k] = v` on a fresh key appends; mutating an existing entry updates it
in place).  The Python `set` of favourites is modelled as a list; `Favourite`
equality/hash is over the (user_id, submission_id) pair only, so `fav in set`,
`set.remove(fav)` and `set.add(fav)` are modelled with that pair equality.
-/

/-- Model of class `User` (src/favourites_store.py lines 320-326). -/
structure User where
  user_id : String
  name : String
  is_watcher : Bool
  watch_date : Option Nat
deriving DecidableEq

/-- Model of class `Submission` (src/favourites_store.py lines 345-350). -/
structure Submission where
  submission_id : String
  title : String
  upload_date : Option Nat
deriving DecidableEq

/-- Model of class `Favourite` (src/favourites_store.py lines 368-373). -/
structure Favourite where
  user_id : String
  submission_id : String
  fav_date : Option Nat
deriving DecidableEq

/-- Model of the `Site` entity collections (src/favourites_store.py lines
62-68): a name, the users dict, the submissions dict and the favourites set. -/
@[ext]
structure Site where
  name : String
  users : List User
  submissions : List Submission
  favourites : List Favourite
deriving DecidableEq

/-- Python `user_id in self.users` (dict key membership). -/
def usersMem (s : Site) (uid : String) : Bool :=
  s.users.any (fun u => u.user_id == uid)

/-- Python `submission_id in self.submissions` (dict key membership). -/
def subsMem (s : Site) (sid : String) : Bool :=
  s.submissions.any (fun sub => sub.submission_id == sid)

/-- `Favourite.__eq__` (src/favourites_store.py lines 393-397): equality on
the (user_id, submission_id) pair only, ignoring `fav_date`. -/
def favKeyEq (a b : Favourite) : Bool :=
  a.user_id == b.user_id && a.submission_id == b.submission_id

/-- Python `fav in self.favourites` under `Favourite.__eq__`. -/
def favsMem (l : List Favourite) (f : Favourite) : Bool :=
  l.any (favKeyEq f)

/-- The update applied to the user found in the dict by `mark_watcher`
(src/favourites_store.py lines 123-130): an existing watcher gets its
`watch_date` overwritten; a non-watcher additionally gets `is_watcher` set. -/
def updateWatcher (watch_date : Option Nat) (usr : User) : User :=
  if usr.is_watcher then { usr with watch_date := watch_date }
  else { usr with is_watcher := true, watch_date := watch_date }

/-- Model of `Site.mark_watcher` (src/favourites_store.py lines 117-130).
If the user id is unknown a new user is appended with `is_watcher=true` and
the given date; otherwise the existing user entry is updated in place. -/
def mark_watcher (s : Site) (user_id user_name : String) (watch_date : Option Nat) : Site :=
  if usersMem s user_id = false then
    { s with users := s.users ++
        [{ user_id := user_id, name := user_name, is_watcher := true,
           watch_date := watch_date }] }
  else
    { s with users := s.users.map (fun usr =>
        if usr.user_id == user_id then updateWatcher watch_date usr else usr) }

/-- First block of `Site.mark_favourite` (src/favourites_store.py lines
133-136): if the user id is unknown, append a new non-watcher user. -/
def ensureUser (s : Site) (user_id user_name : String) : Site :=
  if usersMem s user_id = false then
    { s with users := s.users ++
        [{ user_id := user_id, name := user_name, is_watcher := false,
           watch_date := none }] }
  else s

/-- Second block of `Site.mark_favourite` (src/favourites_store.py lines
137-140): if the submission id is unknown, append a new submission with the
given title. -/
def ensureSubmission (s : Site) (submission_id submission_name : String) : Site :=
  if subsMem s submission_id = false then
    { s with submissions := s.submissions ++
        [{ submission_id := submission_id, title := submission_name,
           upload_date := none }] }
  else s

/-- Third block of `Site.mark_favourite` (src/favourites_store.py lines
141-149): if a favourite with the same (user_id, submission_id) pair is in
the set, remove it first, then add the new favourite, so the new date wins. -/
def insertFav (s : Site) (fav : Favourite) : Site :=
  if favsMem s.favourites fav then
    { s with favourites := (s.favourites.eraseP (favKeyEq fav)) ++ [fav] }
  else
    { s with favourites := s.favourites ++ [fav] }

/-- Model of `Site.mark_favourite` (src/favourites_store.py lines 132-149):
ensure the user exists, ensure the submission exists, then insert the
favourite, in the source's statement order. -/
def mark_favourite (s : Site) (user_id user_name submission_id submission_name : String)
    (fav_date : Option Nat) : Site :=
  insertFav (ensureSubmission (ensureUser s user_id user_name)
      submission_id submission_name)
    { user_id := user_id, submission_id := submission_id, fav_date := fav_date }

/-- One entry of the submission ranking index: the dict
`{"submission": ..., "favourites": ..., "fav_count": ...}` built at
src/favourites_store.py lines 95-99. -/
structure SubIndexEntry where
  submission : Submission
  favourites : List Favourite
  fav_count : Nat
deriving DecidableEq

/-- One entry of the user ranking index: the dict
`{"user": ..., "favourites": ..., "fav_count": ...}` built at
src/favourites_store.py lines 108-112. -/
structure UserIndexEntry where
  user : User
  favourites : List Favourite
  fav_count : Nat
deriving DecidableEq

/-- Python `sorted(index, key=lambda x: x["fav_count"], reverse=True)`:
a stable sort descending by `key`.  Python's `sorted` is stable, and the
stable descending sort is modelled by Mathlib's stable `insertionSort` with
the relation `key b ≤ key a` (ties keep their original relative order). -/
instance decRelSortDescBy {α : Type} (key : α → Nat) :
    DecidableRel (fun a b : α => key b ≤ key a) :=
  fun a b => Nat.decLe (key b) (key a)

def sortDescBy {α : Type} (key : α → Nat) (l : List α) : List α :=
  List.insertionSort (fun a b => key b ≤ key a) l

/-- The unsorted index built by the loop of `get_submission_favourites_index`
(src/favourites_store.py lines 92-100): one entry per submission, in the
submissions dict's insertion order. -/
def subIndexEntries (s : Site) : List SubIndexEntry :=
  s.submissions.map (fun submission =>
    let favourites := s.favourites.filter
      (fun fav => fav.submission_id == submission.submission_id)
    { submission := submission, favourites := favourites,
      fav_count := favourites.length })

/-- Model of `Site.get_submission_favourites_index`
(src/favourites_store.py lines 91-102). -/
def get_submission_favourites_index (s : Site) : List SubIndexEntry :=
  sortDescBy (fun e => e.fav_count) (subIndexEntries s)

/-- The unsorted index built by the loop of `get_user_favourites_index`
(src/favourites_store.py lines 105-113): one entry per user, in the users
dict's insertion order. -/
def userIndexEntries (s : Site) : List UserIndexEntry :=
  s.users.map (fun user =>
    let favourites := s.favourites.filter
      (fun fav => fav.user_id == user.user_id)
    { user := user, favourites := favourites, fav_count := favourites.length })

/-- Model of `Site.get_user_favourites_index`
(src/favourites_store.py lines 104-115). -/
def get_user_favourites_index (s : Site) : List UserIndexEntry :=
  sortDescBy (fun e => e.fav_count) (userIndexEntries s)

/-- One raw event applied to a site by the reconciliation engine: either a
`mark_watcher` call or a `mark_favourite` call, with the call's arguments. -/
inductive SiteOp where
  | watch : String → String → Option Nat → SiteOp
  | fav : String → String → String → String → Option Nat → SiteOp

/-- Apply one reconciliation call to a site. -/
def applyOp (s : Site) : SiteOp → Site
  | .watch uid un d => mark_watcher s uid un d
  | .fav uid un sid sn d => mark_favourite s uid un sid sn d

/-- Apply a sequence of reconciliation calls, left to right. -/
def applyOps (s : Site) (ops : List SiteOp) : Site :=
  ops.foldl applyOp s

/-- Strip a literal leading character sequence from a character list,
returning the remainder, or `none` when the sequence is not there. -/
def dropLeading : List Char → List Char → Option (List Char)
  | [], rest => some rest
  | _ :: _, [] => none
  | p :: ps, c :: cs => if c = p then dropLeading ps cs else none

/-- Whether the regular expression `Displaying \d+-(\d+) of \1 result\(s\).`
(src/favourites_store.py line 285) matches starting at the head of the
character list.  Both `\d+` runs are forced to be maximal digit runs because
the character following each in the pattern is not a digit, so span-style
matching is exact; `\1` is the literal text of the captured group, and the
final `.` is an unescaped regex dot matching any character except a newline. -/
def matchTerminalAt (cs : List Char) : Bool :=
  match dropLeading "Displaying ".toList cs with
  | none => false
  | some r0 =>
    let d1 := r0.takeWhile Char.isDigit
    let r1 := r0.dropWhile Char.isDigit
    if d1.isEmpty then false else
    match r1 with
    | '-' :: r2 =>
      let g := r2.takeWhile Char.isDigit
      let r3 := r2.dropWhile Char.isDigit
      if g.isEmpty then false else
      match dropLeading " of ".toList r3 with
      | none => false
      | some r4 =>
        match dropLeading g r4 with
        | none => false
        | some r5 =>
          match dropLeading " result(s)".toList r5 with
          | none => false
          | some r6 =>
            match r6 with
            | [] => false
            | c :: _ => c != '\n'
    | _ => false

/-- Search for a match of the terminal pattern at every position. -/
def searchTerminalFrom : List Char → Bool
  | [] => false
  | c :: rest => matchTerminalAt (c :: rest) || searchTerminalFrom rest

/-- Python `re.search(r"Displaying \d+-(\d+) of \1 result\(s\).", text)`
viewed as a Boolean: does the terminal pattern match anywhere in the text. -/
def reSearchTerminal (text : String) : Bool :=
  searchTerminalFrom text.toList

/-- One fetched notification page, as the paginator sees it: the optional
summary region text (`soup.select_one("#yw0 .summary")`, `none` when the
selector finds nothing) and the event rows (`soup.select("#yw0 .items tbody
tr")`). -/
structure Page (ρ : Type) where
  summary : Option String
  rows : List ρ

/-- How the paginator loop exited: terminal summary matched, summary region
absent, or the page counter reached the loop bound (the code prints
"Too many pages of notifications encountered." on that path). -/
inductive PagStatus where
  | terminal : PagStatus
  | noSummary : PagStatus
  | tooManyPages : PagStatus
deriving DecidableEq

/-- Result of the paginator: the accumulated rows, the exit status, and the
page numbers passed to the fetch capability, in request order. -/
structure PagResult (ρ : Type) where
  rows : List ρ
  status : PagStatus
  pagesFetched : List Nat

/-- The `while page < 100` loop of `SofurrySite._get_notifications`
(src/favourites_store.py lines 271-288).  The loop guard `page < 100` is
rendered as the fuel argument, kept equal to `100 - page` (so fuel `0` is
exactly the guard failing, the "Too many pages" exit).  Each iteration
fetches the current page, increments the counter, returns `[]` at once when
the summary region is absent, otherwise appends the page's rows and stops
when the terminal pattern matches. -/
def getNotifLoop {ρ : Type} (fetch : Nat → Page ρ) :
    Nat → Nat → List ρ → List Nat → PagResult ρ
  | 0, _page, acc, fetched =>
    { rows := acc, status := .tooManyPages, pagesFetched := fetched }
  | fuel + 1, page, acc, fetched =>
    let p := fetch page
    match p.summary with
    | none => { rows := [], status := .noSummary, pagesFetched := fetched ++ [page] }
    | some s =>
      if reSearchTerminal s then
        { rows := acc ++ p.rows, status := .terminal, pagesFetched := fetched ++ [page] }
      else
        getNotifLoop fetch fuel (page + 1) (acc ++ p.rows) (fetched ++ [page])

/-- Model of `SofurrySite._get_notifications` (src/favourites_store.py lines
271-288): run the page loop starting from page 1 with empty accumulation.
With the counter at 1, the guard `page < 100` allows `100 - 1 = 99` more
iterations, which is the initial fuel. -/
def get_notifications {ρ : Type} (fetch : Nat → Page ρ) : PagResult ρ :=
  getNotifLoop fetch 99 1 [] []

/-- A user record lookup, Python `self.users[user_id]` read access. -/
def findUser (s : Site) (uid : String) : Option User :=
  s.users.find? (fun u => u.user_id == uid)

/-- Referential integrity of a site: every favourite's user id and submission
id name an existing user and submission of the same site. -/
def integrity (s : Site) : Prop :=
  ∀ f ∈ s.favourites,
    (∃ u ∈ s.users, u.user_id = f.user_id) ∧
    (∃ sub ∈ s.submissions, sub.submission_id = f.submission_id)

/-- The favourites set has at most one member per (user_id, submission_id)
identity: the representation invariant of a Python set of `Favourite`. -/
def favsNodup (s : Site) : Prop :=
  s.favourites.Pairwise (fun a b => favKeyEq a b = false)

/-- An empty example site. -/
def emptySite : Site :=
  { name := "example", users := [], submissions := [], favourites := [] }

/-- Example site for the ranking instance: users A, B, C inserted in that
order, holding 3, 1 and 0 favourites respectively. -/
def siteABC : Site :=
  { name := "example"
    users := [{ user_id := "A", name := "Alice", is_watcher := false, watch_date := none },
              { user_id := "B", name := "Bob", is_watcher := false, watch_date := none },
              { user_id := "C", name := "Cleo", is_watcher := true, watch_date := some 1 }]
    submissions := [{ submission_id := "s1", title := "one", upload_date := none },
                    { submission_id := "s2", title := "two", upload_date := none },
                    { submission_id := "s3", title := "three", upload_date := none }]
    favourites := [{ user_id := "A", submission_id := "s1", fav_date := some 2 },
                   { user_id := "A", submission_id := "s2", fav_date := some 3 },
                   { user_id := "A", submission_id := "s3", fav_date := some 4 },
                   { user_id := "B", submission_id := "s1", fav_date := some 5 }] }

/-- Example site holding a single user who is already a watcher with a
recorded watch date. -/
def siteW : Site :=
  { name := "example"
    users := [{ user_id := "u", name := "Una", is_watcher := true, watch_date := some 5 }]
    submissions := [], favourites := [] }

/-- Example fetch capability whose pages all carry a parseable summary that
never matches the terminal pattern (the displayed-range end 1 differs from
the stated total 2), with one row per page. -/
def ceilingFetch : Nat → Page Unit := fun _ =>
  { summary := some "Displaying 1-1 of 2 result(s).", rows := [()] }

/-- Example fetch capability for the two-page paginator instance: page 1
shows rows 0-19 of 45, page 2 shows rows 20-44 of 45 with a terminal
summary. -/
def twoPageFetch : Nat → Page Nat := fun n =>
  if n = 1 then
    { summary := some "Displaying 1-20 of 45 result(s).", rows := List.range 20 }
  else if n = 2 then
    { summary := some "Displaying 21-45 of 45 result(s).",
      rows := (List.range 25).map (fun i => 20 + i) }
  else { summary := none, rows := [] }

/-- Example fetch capability whose first page has no summary region. -/
def noSummaryFetch : Nat → Page Nat := fun _ => { summary := none, rows := [] }

theorem countP_eraseP_add_one {α : Type} (p : α → Bool) :
    ∀ l : List α, l.any p = true → (l.eraseP p).countP p + 1 = l.countP p := by
  intro l
  induction l with
  | nil => intro h; simp at h
  | cons a t ih =>
    intro h
    cases pa : p a with
    | true =>
      rw [List.eraseP_cons_of_pos pa, List.countP_cons_of_pos _ _ pa]
    | false =>
      have pa' : ¬p a := by simp [pa]
      have ht : t.any p = true := by
        simpa [List.any_cons, pa] using h
      rw [List.eraseP_cons_of_neg pa', List.countP_cons_of_neg _ _ pa',
        List.countP_cons_of_neg _ _ pa']
      exact ih ht

theorem length_eraseP_add_one {α : Type} (p : α → Bool) :
    ∀ l : List α, l.any p = true → (l.eraseP p).length + 1 = l.length := by
  intro l
  induction l with
  | nil => intro h; simp at h
  | cons a t ih =>
    intro h
    cases pa : p a with
    | true => rw [List.eraseP_cons_of_pos pa, List.length_cons]
    | false =>
      have pa' : ¬p a := by simp [pa]
      have ht : t.any p = true := by
        simpa [List.any_cons, pa] using h
      rw [List.eraseP_cons_of_neg pa', List.length_cons, List.length_cons]
      exact congrArg Nat.succ (ih ht)

theorem favKeyEq_true_iff (a b : Favourite) :
    favKeyEq a b = true ↔ a.user_id = b.user_id ∧ a.submission_id = b.submission_id := by
  simp [favKeyEq]

theorem countP_favKeyEq_le_one (fav : Favourite) :
    ∀ l : List Favourite, l.Pairwise (fun a b => favKeyEq a b = false) →
      l.countP (favKeyEq fav) ≤ 1 := by
  intro l
  induction l with
  | nil => intro _; simp
  | cons a t ih =>
    intro h
    rcases List.pairwise_cons.mp h with ⟨ha, ht⟩
    cases pa : favKeyEq fav a with
    | true =>
      have hzero : t.countP (favKeyEq fav) = 0 := by
        refine List.countP_eq_zero.mpr ?_
        intro b hb hfb
        rcases (favKeyEq_true_iff fav a).mp pa with ⟨ua, sa⟩
        rcases (favKeyEq_true_iff fav b).mp hfb with ⟨ub, sb⟩
        have hab : favKeyEq a b = true :=
          (favKeyEq_true_iff a b).mpr ⟨ua ▸ ub, sa ▸ sb⟩
        rw [ha b hb] at hab
        exact Bool.false_ne_true hab
      rw [List.countP_cons_of_pos _ _ pa, hzero]
    | false =>
      have pa' : ¬favKeyEq fav a := by simp [pa]
      rw [List.countP_cons_of_neg _ _ pa']
      exact ih ht

theorem mark_watcher_users (s : Site) (uid un : String) (wd : Option Nat) :
    (mark_watcher s uid un wd).users =
      if usersMem s uid = false then
        s.users ++ [{ user_id := uid, name := un, is_watcher := true, watch_date := wd }]
      else
        s.users.map (fun usr =>
          if usr.user_id == uid then updateWatcher wd usr else usr) := by
  unfold mark_watcher
  split <;> rfl

theorem mark_watcher_submissions (s : Site) (uid un : String) (wd : Option Nat) :
    (mark_watcher s uid un wd).submissions = s.submissions := by
  unfold mark_watcher
  split <;> rfl

theorem mark_watcher_favourites (s : Site) (uid un : String) (wd : Option Nat) :
    (mark_watcher s uid un wd).favourites = s.favourites := by
  unfold mark_watcher
  split <;> rfl

theorem ensureUser_users (s : Site) (uid un : String) :
    (ensureUser s uid un).users =
      if usersMem s uid = false then
        s.users ++ [{ user_id := uid, name := un, is_watcher := false, watch_date := none }]
      else s.users := by
  unfold ensureUser
  split <;> rfl

theorem ensureUser_submissions (s : Site) (uid un : String) :
    (ensureUser s uid un).submissions = s.submissions := by
  unfold ensureUser
  split <;> rfl

theorem ensureUser_favourites (s : Site) (uid un : String) :
    (ensureUser s uid un).favourites = s.favourites := by
  unfold ensureUser
  split <;> rfl

theorem ensureSubmission_users (s : Site) (sid sn : String) :
    (ensureSubmission s sid sn).users = s.users := by
  unfold ensureSubmission
  split <;> rfl

theorem ensureSubmission_submissions (s : Site) (sid sn : String) :
    (ensureSubmission s sid sn).submissions =
      if subsMem s sid = false then
        s.submissions ++ [{ submission_id := sid, title := sn, upload_date := none }]
      else s.submissions := by
  unfold ensureSubmission
  split <;> rfl

theorem ensureSubmission_favourites (s : Site) (sid sn : String) :
    (ensureSubmission s sid sn).favourites = s.favourites := by
  unfold ensureSubmission
  split <;> rfl

theorem insertFav_users (s : Site) (fav : Favourite) :
    (insertFav s fav).users = s.users := by
  unfold insertFav
  split <;> rfl

theorem insertFav_submissions (s : Site) (fav : Favourite) :
    (insertFav s fav).submissions = s.submissions := by
  unfold insertFav
  split <;> rfl

theorem insertFav_favourites (s : Site) (fav : Favourite) :
    (insertFav s fav).favourites =
      if favsMem s.favourites fav then
        (s.favourites.eraseP (favKeyEq fav)) ++ [fav]
      else s.favourites ++ [fav] := by
  unfold insertFav
  split <;> rfl

theorem subsMem_ensureUser (s : Site) (uid un sid : String) :
    subsMem (ensureUser s uid un) sid = subsMem s sid := by
  unfold subsMem
  rw [ensureUser_submissions]

theorem mark_favourite_users (s : Site) (uid un sid sn : String) (d : Option Nat) :
    (mark_favourite s uid un sid sn d).users =
      if usersMem s uid = false then
        s.users ++ [{ user_id := uid, name := un, is_watcher := false, watch_date := none }]
      else s.users := by
  unfold mark_favourite
  rw [insertFav_users, ensureSubmission_users, ensureUser_users]

theorem mark_favourite_submissions (s : Site) (uid un sid sn : String) (d : Option Nat) :
    (mark_favourite s uid un sid sn d).submissions =
      if subsMem s sid = false then
        s.submissions ++ [{ submission_id := sid, title := sn, upload_date := none }]
      else s.submissions := by
  unfold mark_favourite
  rw [insertFav_submissions, ensureSubmission_submissions, subsMem_ensureUser,
    ensureUser_submissions]

theorem mark_favourite_favourites (s : Site) (uid un sid sn : String) (d : Option Nat) :
    (mark_favourite s uid un sid sn d).favourites =
      if favsMem s.favourites { user_id := uid, submission_id := sid, fav_date := d } then
        (s.favourites.eraseP
            (favKeyEq { user_id := uid, submission_id := sid, fav_date := d })) ++
          [{ user_id := uid, submission_id := sid, fav_date := d }]
      else
        s.favourites ++ [{ user_id := uid, submission_id := sid, fav_date := d }] := by
  unfold mark_favourite
  rw [insertFav_favourites, ensureSubmission_favourites, ensureUser_favourites]

theorem favKeyEq_refl (a : Favourite) : favKeyEq a a = true := by
  simp [favKeyEq]

theorem mark_watcher_name (s : Site) (uid un : String) (wd : Option Nat) :
    (mark_watcher s uid un wd).name = s.name := by
  unfold mark_watcher
  split <;> rfl

theorem updateWatcher_user_id (wd : Option Nat) (u : User) :
    (updateWatcher wd u).user_id = u.user_id := by
  unfold updateWatcher
  split <;> rfl

theorem updateWatcher_name (wd : Option Nat) (u : User) :
    (updateWatcher wd u).name = u.name := by
  unfold updateWatcher
  split <;> rfl

theorem updateWatcher_is_watcher (wd : Option Nat) (u : User) :
    (updateWatcher wd u).is_watcher = (u.is_watcher || true) := by
  unfold updateWatcher
  cases h : u.is_watcher <;> simp [h]

theorem updateWatcher_idem (wd : Option Nat) (u : User) :
    updateWatcher wd (updateWatcher wd u) = updateWatcher wd u := by
  unfold updateWatcher
  cases h : u.is_watcher <;> simp [h]

theorem any_user_id_map (l : List User) (f : User → User)
    (hf : ∀ u, (f u).user_id = u.user_id) (uid : String) :
    (l.map f).any (fun u => u.user_id == uid) = l.any (fun u => u.user_id == uid) := by
  induction l with
  | nil => rfl
  | cons a t ih => simp [List.any_cons, hf, ih]

theorem find?_user_id_map (l : List User) (f : User → User)
    (hf : ∀ u, (f u).user_id = u.user_id) (uid : String) :
    (l.map f).find? (fun u => u.user_id == uid) =
      (l.find? (fun u => u.user_id == uid)).map f := by
  induction l with
  | nil => rfl
  | cons a t ih =>
    by_cases ha : (a.user_id == uid) = true
    · simp [List.find?_cons, ha, hf]
    · simp [List.find?_cons, ha, hf, ih]

theorem usersMem_mark_watcher (s : Site) (uid un : String) (wd : Option Nat) :
    usersMem (mark_watcher s uid un wd) uid = true := by
  unfold usersMem
  rw [mark_watcher_users]
  by_cases h : usersMem s uid = false
  · rw [if_pos h]
    simp [List.any_append]
  · rw [if_neg h]
    unfold usersMem at h
    rw [any_user_id_map]
    · simp only [Bool.not_eq_false] at h
      exact h
    · intro u
      by_cases hu : (u.user_id == uid) = true <;> simp [hu, updateWatcher_user_id]

/-- C10: `mark_watcher` is idempotent on the Site state: calling it twice in
succession with identical arguments produces exactly the same users,
submissions and favourites collections as calling it once. -/
theorem mark_watcher_idempotent (s : Site) (uid un : String) (wd : Option Nat) :
    mark_watcher (mark_watcher s uid un wd) uid un wd = mark_watcher s uid un wd := by
  apply Site.ext
  · rw [mark_watcher_name, mark_watcher_name]
  · rw [mark_watcher_users (mark_watcher s uid un wd) uid un wd]
    have hm : usersMem (mark_watcher s uid un wd) uid = true :=
      usersMem_mark_watcher s uid un wd
    rw [if_neg (by rw [hm]; simp)]
    rw [mark_watcher_users s uid un wd]
    by_cases h : usersMem s uid = false
    · rw [if_pos h, List.map_append]
      have hnone : ∀ u ∈ s.users, (u.user_id == uid) = false := by
        unfold usersMem at h
        intro u hu
        rw [Bool.eq_false_iff]
        intro hcontra
        rw [List.any_eq_false] at h
        exact h u hu hcontra
      have e1 : s.users.map (fun usr =>
          if usr.user_id == uid then updateWatcher wd usr else usr) = s.users := by
        rw [List.map_congr_left (fun u hu => by rw [if_neg (by rw [hnone u hu]; simp)])]
        simp
      rw [List.map_cons, List.map_nil, e1]
      simp [updateWatcher]
    · rw [if_neg h, List.map_map]
      apply List.map_congr_left
      intro u _
      by_cases hu : (u.user_id == uid) = true
      · simp only [Function.comp]
        rw [if_pos hu, if_pos (by rw [updateWatcher_user_id]; exact hu)]
        exact updateWatcher_idem wd u
      · simp only [Function.comp]
        rw [if_neg hu, if_neg hu]
  · rw [mark_watcher_submissions, mark_watcher_submissions]
  · rw [mark_watcher_favourites, mark_watcher_favourites]

theorem countP_mark_favourite (s : Site) (uid un sid sn : String) (d : Option Nat)
    (hnodup : favsNodup s) :
    (mark_favourite s uid un sid sn d).favourites.countP
      (favKeyEq { user_id := uid, submission_id := sid, fav_date := d }) = 1 := by
  rw [mark_favourite_favourites]
  by_cases hm : favsMem s.favourites
      { user_id := uid, submission_id := sid, fav_date := d } = true
  · rw [if_pos hm, List.countP_append]
    have hany : s.favourites.any
        (favKeyEq { user_id := uid, submission_id := sid, fav_date := d }) = true := hm
    have h1 := countP_eraseP_add_one
      (favKeyEq { user_id := uid, submission_id := sid, fav_date := d }) s.favourites hany
    have hle := countP_favKeyEq_le_one
      { user_id := uid, submission_id := sid, fav_date := d } s.favourites hnodup
    have hpos : 0 < s.favourites.countP
        (favKeyEq { user_id := uid, submission_id := sid, fav_date := d }) := by
      obtain ⟨x, hx, hpx⟩ := List.any_eq_true.mp hany
      exact List.countP_pos_iff.mpr ⟨x, hx, hpx⟩
    have hone : List.countP
        (favKeyEq { user_id := uid, submission_id := sid, fav_date := d })
        [({ user_id := uid, submission_id := sid, fav_date := d } : Favourite)] = 1 := by
      simp [favKeyEq_refl]
    rw [hone]
    omega
  · rw [if_neg hm, List.countP_append]
    have hz : s.favourites.countP
        (favKeyEq { user_id := uid, submission_id := sid, fav_date := d }) = 0 := by
      rw [List.countP_eq_zero]
      intro a ha hpa
      exact hm (List.any_eq_true.mpr ⟨a, ha, hpa⟩)
    have hone : List.countP
        (favKeyEq { user_id := uid, submission_id := sid, fav_date := d })
        [({ user_id := uid, submission_id := sid, fav_date := d } : Favourite)] = 1 := by
      simp [favKeyEq_refl]
    rw [hz, hone]

/-- C1: calling `mark_favourite` twice in succession with identical arguments
leaves the favourites set the same size as after the first call, exactly one
favourite with identity (user_id, submission_id) exists afterwards, and that
favourite's stored `fav_date` is the date passed in the second call.  The
hypothesis is the Python-set representation invariant: at most one favourite
per identity. -/
theorem mark_favourite_twice_same_args (s : Site) (uid un sid sn : String)
    (d : Option Nat) (hnodup : favsNodup s) :
    ((mark_favourite (mark_favourite s uid un sid sn d) uid un sid sn d).favourites.length =
        (mark_favourite s uid un sid sn d).favourites.length) ∧
    ((mark_favourite (mark_favourite s uid un sid sn d) uid un sid sn d).favourites.countP
        (favKeyEq { user_id := uid, submission_id := sid, fav_date := d }) = 1) ∧
    (∀ f ∈ (mark_favourite (mark_favourite s uid un sid sn d) uid un sid sn d).favourites,
      f.user_id = uid → f.submission_id = sid → f.fav_date = d) := by
  have h1 := countP_mark_favourite s uid un sid sn d hnodup
  have hmem : favsMem (mark_favourite s uid un sid sn d).favourites
      { user_id := uid, submission_id := sid, fav_date := d } = true := by
    obtain ⟨a, ha, hpa⟩ := List.countP_pos_iff.mp (by rw [h1]; exact Nat.zero_lt_one)
    exact List.any_eq_true.mpr ⟨a, ha, hpa⟩
  have h2 := mark_favourite_favourites
    (mark_favourite s uid un sid sn d) uid un sid sn d
  rw [if_pos hmem] at h2
  have hcount0 : ((mark_favourite s uid un sid sn d).favourites.eraseP
      (favKeyEq { user_id := uid, submission_id := sid, fav_date := d })).countP
      (favKeyEq { user_id := uid, submission_id := sid, fav_date := d }) = 0 := by
    have := countP_eraseP_add_one
      (favKeyEq { user_id := uid, submission_id := sid, fav_date := d })
      (mark_favourite s uid un sid sn d).favourites hmem
    omega
  refine ⟨?_, ?_, ?_⟩
  · rw [h2, List.length_append]
    have := length_eraseP_add_one
      (favKeyEq { user_id := uid, submission_id := sid, fav_date := d })
      (mark_favourite s uid un sid sn d).favourites hmem
    simpa using this
  · rw [h2, List.countP_append, hcount0]
    simp [favKeyEq_refl]
  · intro f hf hu hs
    rw [h2] at hf
    rcases List.mem_append.mp hf with hf1 | hf2
    · exfalso
      have hpf : favKeyEq { user_id := uid, submission_id := sid, fav_date := d } f = true := by
        simp [favKeyEq, hu, hs]
      have := List.countP_pos_iff.mpr ⟨f, hf1, hpf⟩
      omega
    · have hfk : f = { user_id := uid, submission_id := sid, fav_date := d } := by
        simpa using hf2
      rw [hfk]

/-- Witness for C1 at a concrete input: the empty site satisfies the
representation invariant, and the theorem's conclusion holds there. -/
theorem mark_favourite_twice_same_args_witness :
    favsNodup emptySite ∧
    (mark_favourite (mark_favourite emptySite "u" "Una" "s1" "one" (some 3))
        "u" "Una" "s1" "one" (some 3)).favourites.countP
      (favKeyEq { user_id := "u", submission_id := "s1", fav_date := some 3 }) = 1 ∧
    (mark_favourite (mark_favourite emptySite "u" "Una" "s1" "one" (some 3))
        "u" "Una" "s1" "one" (some 3)).favourites.length =
      (mark_favourite emptySite "u" "Una" "s1" "one" (some 3)).favourites.length := by
  have hnodup : favsNodup emptySite := by
    simp [favsNodup, emptySite]
  have h := mark_favourite_twice_same_args emptySite "u" "Una" "s1" "one" (some 3) hnodup
  exact ⟨hnodup, h.2.1, h.1⟩

/-- C9: `mark_watcher` never changes the `name` of a user that already
exists, and `mark_favourite` never changes the `title` of a submission that
already exists: the (id, name) pairs of the users dict and the (id, title)
pairs of the submissions dict are preserved in place, and a pair is appended
exactly when the entity is created. -/
theorem names_titles_frozen (s : Site) (uid un sid sn : String) (wd d : Option Nat) :
    ((mark_watcher s uid un wd).users.map (fun u => (u.user_id, u.name)) =
      s.users.map (fun u => (u.user_id, u.name)) ++
        (if usersMem s uid = false then [(uid, un)] else [])) ∧
    ((mark_favourite s uid un sid sn d).submissions.map
        (fun t => (t.submission_id, t.title)) =
      s.submissions.map (fun t => (t.submission_id, t.title)) ++
        (if subsMem s sid = false then [(sid, sn)] else [])) := by
  constructor
  · rw [mark_watcher_users]
    by_cases h : usersMem s uid = false
    · rw [if_pos h, if_pos h, List.map_append]
      rfl
    · rw [if_neg h, if_neg h, List.map_map, List.append_nil]
      apply List.map_congr_left
      intro u _
      by_cases hu : (u.user_id == uid) = true
      · simp only [Function.comp]
        rw [if_pos hu, updateWatcher_user_id, updateWatcher_name]
      · simp only [Function.comp]
        rw [if_neg hu]
  · rw [mark_favourite_submissions]
    by_cases h : subsMem s sid = false
    · rw [if_pos h, if_pos h, List.map_append]
      rfl
    · rw [if_neg h, if_neg h, List.append_nil]

/-- C4 counterexample: in `siteW` the user "u" is already a watcher with
stored watch_date 5; calling `mark_watcher` for "u" with no date does not
leave the watch_date unchanged — it overwrites it with none. -/
theorem mark_watcher_no_date_counterexample :
    (findUser siteW "u").map User.watch_date = some (some 5) ∧
    (findUser (mark_watcher siteW "u" "Una" none) "u").map User.watch_date =
      some none := by
  decide

/-- C4 corrected: for a user that exists and is already a watcher, calling
`mark_watcher` with no watch_date overwrites the stored watch_date with none
(the passed value); `is_watcher` stays true and the name is unchanged. -/
theorem mark_watcher_none_date_overwrites (s : Site) (uid un : String) (usr : User)
    (hfind : findUser s uid = some usr) (hw : usr.is_watcher = true) :
    ∃ v, findUser (mark_watcher s uid un none) uid = some v ∧
      v.watch_date = none ∧ v.is_watcher = true ∧ v.name = usr.name := by
  have hfind' : s.users.find? (fun u => u.user_id == uid) = some usr := hfind
  have hmem : usr ∈ s.users := List.mem_of_find?_eq_some hfind'
  have hpred : (usr.user_id == uid) = true := by
    have := @List.find?_some User (fun u => u.user_id == uid) usr s.users hfind'
    exact this
  have husers : usersMem s uid = true := List.any_eq_true.mpr ⟨usr, hmem, hpred⟩
  have hfu : findUser (mark_watcher s uid un none) uid =
      some (if usr.user_id == uid then updateWatcher none usr else usr) := by
    unfold findUser
    rw [mark_watcher_users, if_neg (by rw [husers]; simp),
      find?_user_id_map _ _ (fun u => by
        by_cases hu : (u.user_id == uid) = true
        · rw [if_pos hu, updateWatcher_user_id]
        · rw [if_neg hu]) uid]
    unfold findUser at hfind
    rw [hfind, Option.map_some']
  rw [if_pos hpred] at hfu
  refine ⟨updateWatcher none usr, hfu, ?_, ?_, ?_⟩
  · unfold updateWatcher
    split <;> rfl
  · unfold updateWatcher
    rw [if_pos hw]
    exact hw
  · exact updateWatcher_name none usr

/-- Witness for C4's corrected theorem at a concrete input: applying the
theorem to `siteW` shows the stored watch_date becomes none while the
watcher flag stays set. -/
theorem mark_watcher_none_date_overwrites_witness :
    (findUser (mark_watcher siteW "u" "X" none) "u").map User.watch_date = some none ∧
    (findUser (mark_watcher siteW "u" "X" none) "u").map User.is_watcher = some true := by
  obtain ⟨v, hfind, hdate, hwatch, _⟩ :=
    mark_watcher_none_date_overwrites siteW "u" "X"
      { user_id := "u", name := "Una", is_watcher := true, watch_date := some 5 }
      (by decide) rfl
  rw [hfind, Option.map_some', Option.map_some', hdate, hwatch]
  exact ⟨rfl, rfl⟩

theorem watcher_persists_mark_watcher (s : Site) (uid' un' : String) (wd : Option Nat)
    (uid : String) (h : ∃ usr, findUser s uid = some usr ∧ usr.is_watcher = true) :
    ∃ usr, findUser (mark_watcher s uid' un' wd) uid = some usr ∧
      usr.is_watcher = true := by
  obtain ⟨usr, hfind, hw⟩ := h
  have hfind' : s.users.find? (fun u => u.user_id == uid) = some usr := hfind
  unfold findUser
  rw [mark_watcher_users]
  by_cases hm : usersMem s uid' = false
  · rw [if_pos hm]
    refine ⟨usr, ?_, hw⟩
    rw [List.find?_append, hfind']
    rfl
  · rw [if_neg hm]
    rw [find?_user_id_map _ _ (fun u => by
      by_cases hu : (u.user_id == uid') = true
      · rw [if_pos hu, updateWatcher_user_id]
      · rw [if_neg hu]) uid]
    rw [hfind', Option.map_some']
    by_cases hu : (usr.user_id == uid') = true
    · rw [if_pos hu]
      refine ⟨updateWatcher wd usr, rfl, ?_⟩
      unfold updateWatcher
      rw [if_pos hw]
      exact hw
    · rw [if_neg hu]
      exact ⟨usr, rfl, hw⟩

theorem watcher_persists_mark_favourite (s : Site)
    (uid' un' sid' sn' : String) (d : Option Nat) (uid : String)
    (h : ∃ usr, findUser s uid = some usr ∧ usr.is_watcher = true) :
    ∃ usr, findUser (mark_favourite s uid' un' sid' sn' d) uid = some usr ∧
      usr.is_watcher = true := by
  obtain ⟨usr, hfind, hw⟩ := h
  have hfind' : s.users.find? (fun u => u.user_id == uid) = some usr := hfind
  unfold findUser
  rw [mark_favourite_users]
  by_cases hm : usersMem s uid' = false
  · rw [if_pos hm]
    refine ⟨usr, ?_, hw⟩
    rw [List.find?_append, hfind']
    rfl
  · rw [if_neg hm]
    exact ⟨usr, hfind', hw⟩

/-- C5: once a user's `is_watcher` is true, it stays true under every
subsequent sequence of `mark_watcher` and `mark_favourite` calls: no
reconciliation operation ever resets the flag. -/
theorem watcher_flag_monotonic (s : Site) (ops : List SiteOp) (uid : String)
    (h : ∃ usr, findUser s uid = some usr ∧ usr.is_watcher = true) :
    ∃ usr, findUser (applyOps s ops) uid = some usr ∧ usr.is_watcher = true := by
  induction ops generalizing s with
  | nil => exact h
  | cons op rest ih =>
    have hstep : ∃ usr, findUser (applyOp s op) uid = some usr ∧
        usr.is_watcher = true := by
      cases op with
      | watch uid' un' wd => exact watcher_persists_mark_watcher s uid' un' wd uid h
      | fav uid' un' sid' sn' d =>
        exact watcher_persists_mark_favourite s uid' un' sid' sn' d uid h
    exact ih (applyOp s op) hstep

/-- Witness for C5 at a concrete input: in `siteW` the user "u" is a watcher;
after a favourite by "u" and another watch event with no date, plus a
favourite by a brand-new user, "u" is still a watcher. -/
theorem watcher_flag_monotonic_witness :
    (findUser (applyOps siteW
        [SiteOp.fav "u" "X" "s9" "nine" (some 7),
         SiteOp.watch "u" "Y" none,
         SiteOp.fav "w" "W" "s9" "nine" (some 8)]) "u").map User.is_watcher =
      some true := by
  obtain ⟨usr, hfind, hw⟩ := watcher_flag_monotonic siteW
    [SiteOp.fav "u" "X" "s9" "nine" (some 7),
     SiteOp.watch "u" "Y" none,
     SiteOp.fav "w" "W" "s9" "nine" (some 8)] "u"
    ⟨{ user_id := "u", name := "Una", is_watcher := true, watch_date := some 5 },
      by decide, rfl⟩
  rw [hfind, Option.map_some', hw]

/-- C6: starting from a site satisfying referential integrity (every
favourite's user and submission exist), both `mark_watcher` and
`mark_favourite` preserve the invariant. -/
theorem integrity_preserved (s : Site) (uid un sid sn : String) (wd d : Option Nat)
    (h : integrity s) :
    integrity (mark_watcher s uid un wd) ∧ integrity (mark_favourite s uid un sid sn d) := by
  constructor
  · intro f hf
    rw [mark_watcher_favourites] at hf
    obtain ⟨⟨u, hu, huid⟩, ⟨t, ht, htid⟩⟩ := h f hf
    constructor
    · rw [mark_watcher_users]
      by_cases hm : usersMem s uid = false
      · rw [if_pos hm]
        exact ⟨u, List.mem_append_left _ hu, huid⟩
      · rw [if_neg hm]
        refine ⟨(fun usr => if usr.user_id == uid then updateWatcher wd usr else usr) u,
          List.mem_map_of_mem _ hu, ?_⟩
        by_cases hx : (u.user_id == uid) = true
        · simp only [if_pos hx, updateWatcher_user_id]
          exact huid
        · simp only [if_neg hx]
          exact huid
    · rw [mark_watcher_submissions]
      exact ⟨t, ht, htid⟩
  · intro f hf
    rw [mark_favourite_favourites] at hf
    have hcase : f ∈ s.favourites ∨
        f = { user_id := uid, submission_id := sid, fav_date := d } := by
      by_cases hm : favsMem s.favourites
          { user_id := uid, submission_id := sid, fav_date := d } = true
      · rw [if_pos hm] at hf
        rcases List.mem_append.mp hf with h1 | h2
        · exact Or.inl ((List.eraseP_sublist _).subset h1)
        · exact Or.inr (by simpa using h2)
      · rw [if_neg hm] at hf
        rcases List.mem_append.mp hf with h1 | h2
        · exact Or.inl h1
        · exact Or.inr (by simpa using h2)
    constructor
    · rw [mark_favourite_users]
      rcases hcase with hold | hkey
      · obtain ⟨⟨u, hu, huid⟩, _⟩ := h f hold
        by_cases hm : usersMem s uid = false
        · rw [if_pos hm]
          exact ⟨u, List.mem_append_left _ hu, huid⟩
        · rw [if_neg hm]
          exact ⟨u, hu, huid⟩
      · by_cases hm : usersMem s uid = false
        · rw [if_pos hm]
          refine ⟨{ user_id := uid, name := un, is_watcher := false, watch_date := none },
            List.mem_append_right _ (List.mem_singleton.mpr rfl), ?_⟩
          rw [hkey]
        · rw [if_neg hm]
          have hmt : usersMem s uid = true := by
            simpa [Bool.not_eq_false] using hm
          obtain ⟨u, hu, hx⟩ := List.any_eq_true.mp hmt
          refine ⟨u, hu, ?_⟩
          rw [hkey]
          simpa using hx
    · rw [mark_favourite_submissions]
      rcases hcase with hold | hkey
      · obtain ⟨_, ⟨t, ht, htid⟩⟩ := h f hold
        by_cases hm : subsMem s sid = false
        · rw [if_pos hm]
          exact ⟨t, List.mem_append_left _ ht, htid⟩
        · rw [if_neg hm]
          exact ⟨t, ht, htid⟩
      · by_cases hm : subsMem s sid = false
        · rw [if_pos hm]
          refine ⟨{ submission_id := sid, title := sn, upload_date := none },
            List.mem_append_right _ (List.mem_singleton.mpr rfl), ?_⟩
          rw [hkey]
        · rw [if_neg hm]
          have hmt : subsMem s sid = true := by
            simpa [Bool.not_eq_false] using hm
          obtain ⟨t, ht, hx⟩ := List.any_eq_true.mp hmt
          refine ⟨t, ht, ?_⟩
          rw [hkey]
          simpa using hx

/-- Witness for C6 at a concrete input: `siteABC` satisfies referential
integrity, and it still holds after a watch event for a new user and after a
favourite by an existing user on a new submission. -/
theorem integrity_preserved_witness :
    integrity siteABC ∧
    integrity (mark_watcher siteABC "z" "Zed" (some 9)) ∧
    integrity (mark_favourite siteABC "B" "Bob" "s4" "four" (some 9)) := by
  have h0 : integrity siteABC := by
    unfold integrity
    decide
  have h := integrity_preserved siteABC "z" "Zed" "s4" "four" (some 9) (some 9) h0
  have h' := integrity_preserved siteABC "B" "Bob" "s4" "four" (some 9) (some 9) h0
  exact ⟨h0, h.1, h'.2⟩

theorem sortDescBy_perm {α : Type} (key : α → Nat) (l : List α) :
    (sortDescBy key l).Perm l := by
  unfold sortDescBy
  exact List.perm_insertionSort _ l

theorem sortDescBy_sorted {α : Type} (key : α → Nat) (l : List α) :
    (sortDescBy key l).Pairwise (fun a b => key b ≤ key a) := by
  haveI : IsTotal α (fun a b => key b ≤ key a) := ⟨fun a b => Nat.le_total (key b) (key a)⟩
  haveI : IsTrans α (fun a b => key b ≤ key a) :=
    ⟨fun _ _ _ hab hbc => Nat.le_trans hbc hab⟩
  exact List.sorted_insertionSort _ l

theorem filter_key_orderedInsert {α : Type} (key : α → Nat) (x : α) (c : Nat) :
    ∀ l : List α,
      (List.orderedInsert (fun a b => key b ≤ key a) x l).filter (fun a => key a == c) =
        if key x == c then x :: l.filter (fun a => key a == c)
        else l.filter (fun a => key a == c) := by
  intro l
  induction l with
  | nil =>
    simp only [List.orderedInsert, List.filter_cons, List.filter_nil]
  | cons y ys ih =>
    simp only [List.orderedInsert]
    by_cases hr : key y ≤ key x
    · rw [if_pos hr, List.filter_cons]
    · rw [if_neg hr, List.filter_cons]
      by_cases hyc : (key y == c) = true
      · have hyce : key y = c := by simpa using hyc
        have hxc : (key x == c) = false := by
          have hlt : key x < key y := Nat.lt_of_not_le hr
          simp only [beq_eq_false_iff_ne, ne_eq]
          omega
        rw [if_pos hyc, ih, if_neg (by rw [hxc]; simp),
          if_neg (by rw [hxc]; simp), List.filter_cons, if_pos hyc]
      · rw [if_neg hyc, ih, List.filter_cons, if_neg hyc]

theorem sortDescBy_filter {α : Type} (key : α → Nat) (c : Nat) :
    ∀ l : List α,
      (sortDescBy key l).filter (fun a => key a == c) =
        l.filter (fun a => key a == c) := by
  intro l
  induction l with
  | nil => rfl
  | cons y ys ih =>
    simp only [sortDescBy, List.insertionSort] at ih ⊢
    rw [filter_key_orderedInsert key y c, ih, List.filter_cons]

theorem subIndexEntries_mem_spec (s : Site) (e : SubIndexEntry)
    (he : e ∈ subIndexEntries s) :
    e.favourites =
        s.favourites.filter (fun f => f.submission_id == e.submission.submission_id) ∧
    e.fav_count = e.favourites.length := by
  unfold subIndexEntries at he
  obtain ⟨sub, _, he'⟩ := List.mem_map.mp he
  rw [← he']
  exact ⟨rfl, rfl⟩

theorem userIndexEntries_mem_spec (s : Site) (e : UserIndexEntry)
    (he : e ∈ userIndexEntries s) :
    e.favourites = s.favourites.filter (fun f => f.user_id == e.user.user_id) ∧
    e.fav_count = e.favourites.length := by
  unfold userIndexEntries at he
  obtain ⟨u, _, he'⟩ := List.mem_map.mp he
  rw [← he']
  exact ⟨rfl, rfl⟩

/-- C2: each ranking index has one entry per submission (per user); each
entry's favourites list is exactly the favourites matching that entity and
`fav_count` is its length; the sequence is ordered by descending `fav_count`;
entries with equal counts keep the insertion order of the underlying
collection (the filter at every count value equals the unsorted index's
filter); and in particular for users A, B, C inserted in that order with
3, 1, 0 favourites the result is [A, B, C] with counts [3, 1, 0]. -/
theorem favourites_index_correct (s : Site) :
    ((∀ e ∈ get_submission_favourites_index s,
        e.favourites = s.favourites.filter
          (fun f => f.submission_id == e.submission.submission_id) ∧
        e.fav_count = e.favourites.length) ∧
      ((get_submission_favourites_index s).map (fun e => e.submission)).Perm
        s.submissions ∧
      (get_submission_favourites_index s).Pairwise
        (fun a b => b.fav_count ≤ a.fav_count) ∧
      (∀ c, (get_submission_favourites_index s).filter (fun e => e.fav_count == c) =
        (subIndexEntries s).filter (fun e => e.fav_count == c))) ∧
    ((∀ e ∈ get_user_favourites_index s,
        e.favourites = s.favourites.filter
          (fun f => f.user_id == e.user.user_id) ∧
        e.fav_count = e.favourites.length) ∧
      ((get_user_favourites_index s).map (fun e => e.user)).Perm s.users ∧
      (get_user_favourites_index s).Pairwise
        (fun a b => b.fav_count ≤ a.fav_count) ∧
      (∀ c, (get_user_favourites_index s).filter (fun e => e.fav_count == c) =
        (userIndexEntries s).filter (fun e => e.fav_count == c))) ∧
    ((get_user_favourites_index siteABC).map (fun e => (e.user.user_id, e.fav_count)) =
      [("A", 3), ("B", 1), ("C", 0)]) := by
  refine ⟨⟨?_, ?_, ?_, ?_⟩, ⟨?_, ?_, ?_, ?_⟩, ?_⟩
  · intro e he
    have he' : e ∈ sortDescBy (fun e : SubIndexEntry => e.fav_count)
        (subIndexEntries s) := he
    exact subIndexEntries_mem_spec s e
      ((sortDescBy_perm (fun e : SubIndexEntry => e.fav_count)
        (subIndexEntries s)).mem_iff.mp he')
  · have h1 : ((get_submission_favourites_index s).map (fun e => e.submission)).Perm
        ((subIndexEntries s).map (fun e => e.submission)) :=
      (sortDescBy_perm (fun e => e.fav_count) (subIndexEntries s)).map _
    have h2 : (subIndexEntries s).map (fun e => e.submission) = s.submissions := by
      unfold subIndexEntries
      simp [List.map_map, Function.comp_def]
    rw [h2] at h1
    exact h1
  · exact sortDescBy_sorted (fun e => e.fav_count) (subIndexEntries s)
  · intro c
    exact sortDescBy_filter (fun e => e.fav_count) c (subIndexEntries s)
  · intro e he
    have he' : e ∈ sortDescBy (fun e : UserIndexEntry => e.fav_count)
        (userIndexEntries s) := he
    exact userIndexEntries_mem_spec s e
      ((sortDescBy_perm (fun e : UserIndexEntry => e.fav_count)
        (userIndexEntries s)).mem_iff.mp he')
  · have h1 : ((get_user_favourites_index s).map (fun e => e.user)).Perm
        ((userIndexEntries s).map (fun e => e.user)) :=
      (sortDescBy_perm (fun e => e.fav_count) (userIndexEntries s)).map _
    have h2 : (userIndexEntries s).map (fun e => e.user) = s.users := by
      unfold userIndexEntries
      simp [List.map_map, Function.comp_def]
    rw [h2] at h1
    exact h1
  · exact sortDescBy_sorted (fun e => e.fav_count) (userIndexEntries s)
  · intro c
    exact sortDescBy_filter (fun e => e.fav_count) c (userIndexEntries s)
  · decide

theorem getNotifLoop_all_nonterminal {ρ : Type} (fetch : Nat → Page ρ) :
    ∀ (fuel page : Nat) (acc : List ρ) (fetched : List Nat),
      (∀ n, page ≤ n → n < page + fuel → ∃ s, (fetch n).summary = some s ∧
        reSearchTerminal s = false) →
      getNotifLoop fetch fuel page acc fetched =
        { rows := acc ++ ((List.range' page fuel).map (fun n => (fetch n).rows)).flatten,
          status := .tooManyPages,
          pagesFetched := fetched ++ List.range' page fuel } := by
  intro fuel
  induction fuel with
  | zero =>
    intro page acc fetched _
    simp [getNotifLoop, List.range']
  | succ fuel ih =>
    intro page acc fetched h
    obtain ⟨s, hs, hns⟩ := h page (Nat.le_refl _) (by omega)
    simp only [getNotifLoop, hs]
    rw [if_neg (by rw [hns]; simp)]
    rw [ih (page + 1) (acc ++ (fetch page).rows) (fetched ++ [page])
      (fun n h1 h2 => h n (by omega) (by omega))]
    rw [List.range'_succ, List.map_cons, List.flatten_cons]
    simp [List.append_assoc]

theorem getNotifLoop_terminal {ρ : Type} (fetch : Nat → Page ρ) :
    ∀ (fuel page k : Nat) (acc : List ρ) (fetched : List Nat),
      page ≤ k → k < page + fuel →
      (∀ n, page ≤ n → n < k → ∃ s, (fetch n).summary = some s ∧
        reSearchTerminal s = false) →
      (∃ s, (fetch k).summary = some s ∧ reSearchTerminal s = true) →
      getNotifLoop fetch fuel page acc fetched =
        { rows := acc ++
            ((List.range' page (k - page + 1)).map (fun n => (fetch n).rows)).flatten,
          status := .terminal,
          pagesFetched := fetched ++ List.range' page (k - page + 1) } := by
  intro fuel
  induction fuel with
  | zero =>
    intro page k acc fetched hpk hlt _ _
    omega
  | succ fuel ih =>
    intro page k acc fetched hpk hlt hbefore hterm
    by_cases hpage : page = k
    · subst hpage
      obtain ⟨s, hs, hts⟩ := hterm
      simp only [getNotifLoop, hs]
      rw [if_pos hts]
      have hone : page - page + 1 = 1 := by omega
      rw [hone, List.range'_succ]
      simp [List.range']
    · obtain ⟨s, hs, hns⟩ := hbefore page (Nat.le_refl _) (by omega)
      simp only [getNotifLoop, hs]
      rw [if_neg (by rw [hns]; simp)]
      rw [ih (page + 1) k (acc ++ (fetch page).rows) (fetched ++ [page])
        (by omega) (by omega) (fun n h1 h2 => hbefore n (by omega) h2) hterm]
      have harith : k - page + 1 = (k - (page + 1) + 1) + 1 := by omega
      rw [harith, List.range'_succ, List.map_cons, List.flatten_cons]
      simp [List.range'_succ, List.map_cons, List.flatten_cons, List.append_assoc]

theorem getNotifLoop_no_summary {ρ : Type} (fetch : Nat → Page ρ) :
    ∀ (fuel page k : Nat) (acc : List ρ) (fetched : List Nat),
      page ≤ k → k < page + fuel →
      (∀ n, page ≤ n → n < k → ∃ s, (fetch n).summary = some s ∧
        reSearchTerminal s = false) →
      (fetch k).summary = none →
      getNotifLoop fetch fuel page acc fetched =
        { rows := [], status := .noSummary,
          pagesFetched := fetched ++ List.range' page (k - page + 1) } := by
  intro fuel
  induction fuel with
  | zero =>
    intro page k acc fetched hpk hlt _ _
    omega
  | succ fuel ih =>
    intro page k acc fetched hpk hlt hbefore hnone
    by_cases hpage : page = k
    · subst hpage
      simp only [getNotifLoop, hnone]
      have hone : page - page + 1 = 1 := by omega
      rw [hone, List.range'_succ]
      simp [List.range']
    · obtain ⟨s, hs, hns⟩ := hbefore page (Nat.le_refl _) (by omega)
      simp only [getNotifLoop, hs]
      rw [if_neg (by rw [hns]; simp)]
      rw [ih (page + 1) k (acc ++ (fetch page).rows) (fetched ++ [page])
        (by omega) (by omega) (fun n h1 h2 => hbefore n (by omega) h2) hnone]
      have harith : k - page + 1 = (k - (page + 1) + 1) + 1 := by omega
      rw [harith, List.range'_succ]
      simp [List.range'_succ, List.append_assoc]

/-- C3 counterexample: `ceilingFetch` always returns a parseable non-terminal
summary, yet the paginator fetches only 99 pages before hitting the loop
bound, not 100 as the claim states: `while page < 100` with the counter
starting at 1 runs the body for pages 1 through 99. -/
theorem paginator_ceiling_not_100_pages :
    reSearchTerminal "Displaying 1-1 of 2 result(s)." = false ∧
    (get_notifications ceilingFetch).pagesFetched.length = 99 ∧
    ¬(get_notifications ceilingFetch).pagesFetched.length = 100 := by
  decide

/-- C3 corrected: for every fetch function whose pages 1 through 99 all carry
a parseable summary never matching the terminal pattern, the paginator
fetches pages 1 through 99 in order — exactly 99 pages, the loop bound —
then stops with the ceiling condition (the logged "Too many pages" exit) and
returns the concatenation of all fetched rows as a normal result. -/
theorem paginator_ceiling_99_pages {ρ : Type} (fetch : Nat → Page ρ)
    (h : ∀ n, 1 ≤ n → n ≤ 99 → ∃ s, (fetch n).summary = some s ∧
      reSearchTerminal s = false) :
    get_notifications fetch =
      { rows := ((List.range' 1 99).map (fun n => (fetch n).rows)).flatten,
        status := .tooManyPages,
        pagesFetched := List.range' 1 99 } := by
  unfold get_notifications
  rw [getNotifLoop_all_nonterminal fetch 99 1 [] []
    (fun n h1 h2 => h n h1 (by omega))]
  simp

/-- Witness for C3's corrected theorem at a concrete input: `ceilingFetch`
satisfies the hypothesis, and the paginator fetches exactly the 99 pages
1..99, exits with the ceiling status and returns one row per fetched page. -/
theorem paginator_ceiling_99_pages_witness :
    (get_notifications ceilingFetch).pagesFetched = List.range' 1 99 ∧
    (get_notifications ceilingFetch).status = PagStatus.tooManyPages ∧
    (get_notifications ceilingFetch).rows.length = 99 := by
  have h := paginator_ceiling_99_pages ceilingFetch
    (fun n _ _ => ⟨"Displaying 1-1 of 2 result(s).", rfl, by decide⟩)
  rw [h]
  refine ⟨rfl, rfl, by decide⟩

/-- C7: the paginator stops on the first fetched page whose summary matches
the terminal pattern (displayed-range end equals the stated total), after
appending that page's rows, and returns all accumulated rows concatenated in
page order. -/
theorem paginator_terminal_stop {ρ : Type} (fetch : Nat → Page ρ) (k : Nat)
    (hk1 : 1 ≤ k) (hk2 : k ≤ 99)
    (hbefore : ∀ n, 1 ≤ n → n < k → ∃ s, (fetch n).summary = some s ∧
      reSearchTerminal s = false)
    (hterm : ∃ s, (fetch k).summary = some s ∧ reSearchTerminal s = true) :
    get_notifications fetch =
      { rows := ((List.range' 1 k).map (fun n => (fetch n).rows)).flatten,
        status := .terminal,
        pagesFetched := List.range' 1 k } := by
  unfold get_notifications
  rw [getNotifLoop_terminal fetch 99 1 k [] [] hk1 (by omega) hbefore hterm]
  have harith : k - 1 + 1 = k := by omega
  rw [harith]
  simp

/-- Witness for C7 at the claim's concrete instance: with `twoPageFetch`,
whose summaries are "Displaying 1-20 of 45 result(s)." with 20 rows and then
"Displaying 21-45 of 45 result(s)." with 25 rows, the paginator fetches
exactly 2 pages and returns all 45 rows in page order. -/
theorem paginator_terminal_stop_witness :
    (get_notifications twoPageFetch).rows = List.range 45 ∧
    (get_notifications twoPageFetch).pagesFetched = [1, 2] ∧
    (get_notifications twoPageFetch).status = PagStatus.terminal := by
  have h := paginator_terminal_stop twoPageFetch 2 (by omega) (by omega)
    (fun n h1 h2 => by
      have hn : n = 1 := by omega
      subst hn
      exact ⟨"Displaying 1-20 of 45 result(s).", rfl, by decide⟩)
    ⟨"Displaying 21-45 of 45 result(s).", rfl, by decide⟩
  rw [h]
  exact ⟨by decide, by decide, rfl⟩

/-- C8: whenever a fetched page has no parseable summary region, the
paginator immediately returns the empty list — discarding any rows
accumulated from earlier pages — and makes no further fetch calls: the pages
fetched are exactly 1..k, where page k is the summaryless one. -/
theorem paginator_no_summary_stop {ρ : Type} (fetch : Nat → Page ρ) (k : Nat)
    (hk1 : 1 ≤ k) (hk2 : k ≤ 99)
    (hbefore : ∀ n, 1 ≤ n → n < k → ∃ s, (fetch n).summary = some s ∧
      reSearchTerminal s = false)
    (hnone : (fetch k).summary = none) :
    get_notifications fetch =
      { rows := [], status := .noSummary, pagesFetched := List.range' 1 k } := by
  unfold get_notifications
  rw [getNotifLoop_no_summary fetch 99 1 k [] [] hk1 (by omega) hbefore hnone]
  have harith : k - 1 + 1 = k := by omega
  rw [harith]
  simp

/-- Witness for C8 at the claim's concrete instance: a first page with no
summary region yields an empty result, and only page 1 was fetched (zero
further fetches). -/
theorem paginator_no_summary_stop_witness :
    (get_notifications noSummaryFetch).rows = [] ∧
    (get_notifications noSummaryFetch).pagesFetched = [1] ∧
    (get_notifications noSummaryFetch).status = PagStatus.noSummary := by
  have h := paginator_no_summary_stop noSummaryFetch 1 (by omega) (by omega)
    (fun n h1 h2 => by omega) rfl
  rw [h]
  exact ⟨rfl, by decide, rfl⟩
